import Mathlib

/-!
Shallow embedding of `src/core/drivers/_unix_socket.c` (class `UnixSocketPort`).

The driver bridges a packet pipeline to a peer over a SOCK_SEQPACKET unix
socket.  Its mutable state is the idle-poll counter `recv_skip_cnt_`, the
active client descriptor `client_fd_` (`NOT_CONNECTED` = -1 when no peer),
and the retired descriptor `old_client_fd_`.  We additionally carry an
explicit file-descriptor table (descriptor number to connection identifier)
so that `dup2`/`close` effects in `AcceptNewClient` and the keep-open
discipline of `CloseConnection` are observable, plus a flag recording that
an acceptor task has been spawned.

The OS and the allocator are oracles: the receive loop consumes a list of
read events (one per `recv` call), the allocator grants a fixed number of
successful allocations, and each `sendmsg` on a valid descriptor consults a
list of boolean outcomes.
-/

/-- Source constant `NOT_CONNECTED`: the sentinel descriptor value -1. -/
def NOT_CONNECTED : Int := -1

/-- Source constant `RECV_SKIP_TICKS`: the idle-poll backoff value. -/
def RECV_SKIP_TICKS : Nat := 256

/-- Source constant `SNBUF_DATA`: the fixed buffer capacity (2KB per the source comment
"datagrams larger than 2KB will be truncated"). -/
def SNBUF_DATA : Nat := 2048

/-- A file-descriptor table: descriptor number to the identifier of the open
connection it refers to (`none` = not open). -/
def FdTable : Type := Int → Option Nat

/-- Point update of a file-descriptor table. -/
def fdUpdate (t : FdTable) (fd : Int) (v : Option Nat) : FdTable :=
  fun x => if x = fd then v else t x

/-- POSIX `dup2(newfd, oldfd)`: if `oldfd` is not a valid descriptor number
(negative) or `newfd` is not open, fail with no effect (EBADF); otherwise
make `oldfd` refer to the same connection as `newfd`, silently closing
whatever `oldfd` referred to before.  Returns the table and the result. -/
def dup2 (t : FdTable) (newfd oldfd : Int) : FdTable × Int :=
  if oldfd < 0 then (t, -1)
  else
    match t newfd with
    | none => (t, -1)
    | some c => (fdUpdate t oldfd (some c), oldfd)

/-- The driver state: `recv_skip_cnt_`, `client_fd_`, `old_client_fd_`, the
descriptor table, and whether an acceptor task is pending. -/
structure PortState where
  recv_skip_cnt : Nat
  client_fd : Int
  old_client_fd : Int
  fds : FdTable
  acceptPending : Bool

/-- Model of `UnixSocketPort::CloseConnection` (lines 83-95): move `client_fd_` into
`old_client_fd_` WITHOUT closing it, set `client_fd_` to `NOT_CONNECTED`,
and relaunch the accept thread.  The descriptor table is untouched. -/
def CloseConnection (s : PortState) : PortState :=
  { s with
    old_client_fd := s.client_fd
    client_fd := NOT_CONNECTED
    acceptPending := true }

/-- Model of `UnixSocketPort::AcceptNewClient` (lines 51-71), after `accept4` has
succeeded returning the fresh descriptor `newFd` bound to connection `c`:
reset `recv_skip_cnt_` to 0; then, if `old_client_fd_ != NOT_CONNECTED`,
execute `dup2(newFd, client_fd_)` followed by `close(newFd)`; otherwise
store `newFd` into `client_fd_` directly.  The completed task is no longer
pending. -/
def AcceptNewClient (s : PortState) (newFd : Int) (c : Nat) : PortState :=
  let s1 : PortState :=
    { s with
      recv_skip_cnt := 0
      fds := fdUpdate s.fds newFd (some c)
      acceptPending := false }
  if s1.old_client_fd ≠ NOT_CONNECTED then
    let t := (dup2 s1.fds newFd s1.client_fd).1
    { s1 with fds := fdUpdate t newFd none }
  else
    { s1 with client_fd := newFd }

/-- One outcome of a `recv` call, as seen by the receive loop: a delivered
datagram (whose byte list may be empty: an orderly shutdown is observed as a
zero-length read), EAGAIN/EWOULDBLOCK, EINTR, or any other error. -/
inductive ReadEv where
  | dgram (d : List Nat)
  | wouldBlock
  | intr
  | err
deriving DecidableEq, Repr

/-- The `while (received < cnt)` loop of `UnixSocketPort::RecvPackets`
(lines 170-196).  `allocs` is the number of `snb_alloc` calls that will
succeed; each loop iteration consumes one allocation and (if allocation
succeeded) one read event.  `recv` returns `min d.length cap` for a
delivered datagram `d` (truncation to the buffer capacity `cap`), a
would-block, interrupted, or error condition otherwise.  Returns the
collected buffers in order, whether `CloseConnection` was invoked, and how
many freshly allocated buffers were released via `snb_free`.  An exhausted
event list ends the loop (the oracle has nothing further to report). -/
def recvLoop (cap : Nat) (allocs cnt : Nat) (events : List ReadEv) :
    List (List Nat) × Bool × Nat :=
  match cnt, allocs, events with
  | 0, _, _ => ([], false, 0)
  | _ + 1, 0, _ => ([], false, 0)
  | _ + 1, _ + 1, [] => ([], false, 0)
  | c + 1, a + 1, ev :: rest =>
    match ev with
    | ReadEv.dgram d =>
      let ret := min d.length cap
      if 0 < ret then
        let r := recvLoop cap a c rest
        (d.take ret :: r.1, r.2.1, r.2.2)
      else
        ([], true, 1)
    | ReadEv.wouldBlock => ([], false, 1)
    | ReadEv.intr =>
      let r := recvLoop cap a (c + 1) rest
      (r.1, r.2.1, r.2.2 + 1)
    | ReadEv.err => ([], true, 1)
termination_by events

/-- Model of `UnixSocketPort::RecvPackets` (lines 157-201): return immediately when
no client is connected; decrement and return 0 when the idle-poll counter is
nonzero; otherwise run the receive loop, apply `CloseConnection` if the loop
detected loss, and set the counter to `RECV_SKIP_TICKS` when no buffer was
produced.  Result: (new state, collected buffers, fresh buffers freed). -/
def RecvPackets (s : PortState) (cap allocs cnt : Nat) (events : List ReadEv) :
    PortState × List (List Nat) × Nat :=
  if s.client_fd = NOT_CONNECTED then (s, [], 0)
  else if s.recv_skip_cnt ≠ 0 then
    ({ s with recv_skip_cnt := s.recv_skip_cnt - 1 }, [], 0)
  else
    let r := recvLoop cap allocs cnt events
    let s1 := if r.2.1 then CloseConnection s else s
    let s2 :=
      if r.1.length = 0 then { s1 with recv_skip_cnt := RECV_SKIP_TICKS } else s1
    (s2, r.1, r.2.2)

/-- An `rte_mbuf` chain: each segment carries its bytes (`data_len` is the
list length) and either ends the chain or links to the next segment. -/
inductive Mbuf where
  | last (seg : List Nat)
  | cons (seg : List Nat) (next : Mbuf)
deriving DecidableEq, Repr

/-- Accessor for `rte_pktmbuf_mtod` / `rte_pktmbuf_data_len`: the current segment. -/
def Mbuf.seg : Mbuf → List Nat
  | Mbuf.last d => d
  | Mbuf.cons d _ => d

/-- Accessor for `mbuf->next`: the next segment of the chain, if any. -/
def Mbuf.next : Mbuf → Option Mbuf
  | Mbuf.last _ => none
  | Mbuf.cons _ n => some n

/-- The full list of segments of a chain, in order. -/
def chainSegs : Mbuf → List (List Nat)
  | Mbuf.last d => [d]
  | Mbuf.cons d n => d :: chainSegs n

/-- The number of segments of a chain. -/
def chainLen : Mbuf → Nat
  | Mbuf.last _ => 1
  | Mbuf.cons _ n => chainLen n + 1

/-- An `snbuf` on the send side: the stored `nb_segs` count and the mbuf
chain. -/
structure Pkt where
  nb_segs : Nat
  mbuf : Mbuf
deriving DecidableEq, Repr

/-- The iovec-building loop of `SendPackets` (lines 220-224): walk the chain
for exactly `nb_segs` steps, recording each visited segment in order;
`none` if the walk runs off the end of the chain (a null dereference in C). -/
def gatherIov : Nat → Option Mbuf → Option (List (List Nat))
  | 0, _ => some []
  | _ + 1, none => none
  | n + 1, some m => (gatherIov n m.next).map (fun l => m.seg :: l)

/-- The datagram `sendmsg` transmits for one buffer: the concatenation of
the gathered iovec entries. -/
def datagramOf (p : Pkt) : List Nat :=
  ((gatherIov p.nb_segs (some p.mbuf)).getD []).flatten

/-- The `for (i = 0; i < cnt; i++)` loop of `UnixSocketPort::SendPackets`
(lines 207-230): one `sendmsg` per buffer; a call on an invalid descriptor
fails (EBADF), a call on a valid descriptor succeeds or fails as the oracle
`wr` dictates (default: success).  Stops at the first failure.  Returns the
number sent and the datagrams transmitted, in order. -/
def sendLoop (fdValid : Bool) (wr : List Bool) : List Pkt → Nat × List (List Nat)
  | [] => (0, [])
  | p :: rest =>
    if fdValid && wr.headD true then
      let r := sendLoop fdValid wr.tail rest
      (r.1 + 1, datagramOf p :: r.2)
    else (0, [])

/-- Model of `UnixSocketPort::SendPackets` (lines 203-235): capture `client_fd_`, run
the send loop, then `snb_free_bulk(pkts, sent)`.  No driver state is
written.  Result: (state, sent count, transmitted datagrams, buffers
released). -/
def SendPackets (s : PortState) (wr : List Bool) (pkts : List Pkt) :
    PortState × Nat × List (List Nat) × List Pkt :=
  let fdValid : Bool := decide (0 ≤ s.client_fd)
  let r := sendLoop fdValid wr pkts
  (s, r.1, r.2, pkts.take r.1)

/-- Whether the `i`-th `sendmsg` of a send call succeeds, given the captured
descriptor validity and the write oracle. -/
def writeOk (fdValid : Bool) (wr : List Bool) (i : Nat) : Bool :=
  fdValid && wr.getD i true

/-- A sequence of `RecvPackets` calls, each with its own capacity, allocator
budget, requested count and read events, threading the state through and
collecting the per-call return value (number of buffers produced). -/
def recvCalls (s : PortState) :
    List (Nat × Nat × Nat × List ReadEv) → PortState × List Nat
  | [] => (s, [])
  | (cap, allocs, cnt, evs) :: rest =>
    let r := RecvPackets s cap allocs cnt evs
    let rr := recvCalls r.1 rest
    (rr.1, r.2.1.length :: rr.2)

/-- A connected driver state: descriptor 5 open for connection 0, counter
zero, no retirement pending. -/
def stConn : PortState :=
  { recv_skip_cnt := 0
    client_fd := 5
    old_client_fd := NOT_CONNECTED
    fds := fun x => if x = 5 then some 0 else none
    acceptPending := false }

/-- State `stConn` after a connection loss: descriptor 5 retired (still open),
no active descriptor, acceptor pending. -/
def stLost : PortState := CloseConnection stConn

/-- A connected state in the middle of an idle backoff (counter 5). -/
def stThr : PortState := { stConn with recv_skip_cnt := 5 }

/-- A 3-segment outbound buffer with segment lengths 2, 3 and 1. -/
def pkABC : Pkt :=
  { nb_segs := 3
    mbuf := Mbuf.cons [10, 11] (Mbuf.cons [20, 21, 22] (Mbuf.last [30])) }

/-- Lemma: `RecvPackets` never changes the descriptor table: neither the throttle
branch nor `CloseConnection` closes or opens a descriptor. -/
theorem recvPackets_fds (s : PortState) (cap allocs cnt : Nat)
    (events : List ReadEv) : (RecvPackets s cap allocs cnt events).1.fds = s.fds := by
  simp only [RecvPackets]
  split_ifs <;> simp [CloseConnection]

/-- Every buffer produced by the receive loop has length at most the buffer
capacity: `recv` reads at most `cap` bytes. -/
theorem recvLoop_len_le (cap : Nat) :
    ∀ (evs : List ReadEv) (a c : Nat), ∀ p ∈ (recvLoop cap a c evs).1,
      p.length ≤ cap := by
  intro evs
  induction evs with
  | nil =>
    intro a c p hp
    match c, a with
    | 0, _ => simp [recvLoop] at hp
    | _ + 1, 0 => simp [recvLoop] at hp
    | _ + 1, _ + 1 => simp [recvLoop] at hp
  | cons ev rest ih =>
    intro a c p hp
    match c, a with
    | 0, _ => simp [recvLoop] at hp
    | _ + 1, 0 => simp [recvLoop] at hp
    | c + 1, a + 1 =>
      cases ev with
      | dgram d =>
        simp only [recvLoop] at hp
        by_cases h : 0 < min d.length cap
        · rw [if_pos h] at hp
          rcases List.mem_cons.mp hp with hp | hp
          · subst hp
            simp only [List.length_take]
            omega
          · exact ih a c p hp
        · rw [if_neg h] at hp
          simp at hp
      | wouldBlock => simp [recvLoop] at hp
      | intr =>
        simp only [recvLoop] at hp
        exact ih a (c + 1) p hp
      | err => simp [recvLoop] at hp

/-- Within one `RecvPackets` call whose throttle counter is positive, the
call only decrements the counter; iterating such calls while the counter
lasts yields a zero return every time. -/
theorem recvCalls_throttled :
    ∀ (calls : List (Nat × Nat × Nat × List ReadEv)) (s : PortState),
      s.client_fd ≠ NOT_CONNECTED → calls.length ≤ s.recv_skip_cnt →
      (recvCalls s calls).2 = List.replicate calls.length 0 := by
  intro calls
  induction calls with
  | nil => intro s _ _; simp [recvCalls]
  | cons call rest ih =>
    intro s hC hlen
    obtain ⟨cap, allocs, cnt, evs⟩ := call
    have hpos : s.recv_skip_cnt ≠ 0 := by
      simp only [List.length_cons] at hlen
      omega
    have hstep : RecvPackets s cap allocs cnt evs
        = ({ s with recv_skip_cnt := s.recv_skip_cnt - 1 }, [], 0) := by
      simp [RecvPackets, hC, hpos]
    simp only [recvCalls, hstep, List.length_cons]
    rw [ih { s with recv_skip_cnt := s.recv_skip_cnt - 1 } hC
      (by simp only [List.length_cons] at hlen; simp; omega)]
    simp [List.replicate_succ]

/-- The send loop on an invalid descriptor fails at the first `sendmsg`:
nothing is sent and no datagram is transmitted. -/
theorem sendLoop_invalid (wr : List Bool) (pkts : List Pkt) :
    sendLoop false wr pkts = (0, []) := by
  cases pkts <;> simp [sendLoop]

/-- The iovec walk over a chain whose stored segment count matches its
actual length gathers exactly the segments of the chain, in order. -/
theorem gatherIov_chain : ∀ m : Mbuf,
    gatherIov (chainLen m) (some m) = some (chainSegs m) := by
  intro m
  induction m with
  | last d => simp [chainLen, chainSegs, gatherIov, Mbuf.next, Mbuf.seg]
  | cons d n ih =>
    simp [chainLen, chainSegs, gatherIov, Mbuf.next, Mbuf.seg, ih]

/-- C1: the claim says a successful accept resets the idle-poll counter and
installs the new descriptor as the active one — via a descriptor-number
exchange with the retired slot when one is pending — so that afterwards
`active` holds an open descriptor for the new connection.  Evaluating
`AcceptNewClient` at the failing input (retirement pending: descriptor 5
retired and still open, `client_fd_` = NOT_CONNECTED; `accept4` returns
fresh descriptor 7 for connection 1) shows the code instead passes
`client_fd_` (= NOT_CONNECTED) to `dup2`, which fails with EBADF, then
closes descriptor 7: the counter is reset, but the descriptor of the new
connection is closed, `client_fd_` stays NOT_CONNECTED, and descriptor 5
still refers to the old connection 0. -/
theorem c1_accept_install_bug :
    stLost.old_client_fd ≠ NOT_CONNECTED ∧
    (AcceptNewClient stLost 7 1).recv_skip_cnt = 0 ∧
    (AcceptNewClient stLost 7 1).client_fd = NOT_CONNECTED ∧
    (AcceptNewClient stLost 7 1).fds 7 = none ∧
    (AcceptNewClient stLost 7 1).fds 5 = some 0 := by
  refine ⟨by decide, rfl, ?_, ?_, ?_⟩ <;> decide

/-- C4: with an active connection, a receive call with a nonzero idle-poll
counter decrements it and returns no buffer without consulting the read
events at all; and a call that passes the throttle check but produces zero
buffers sets the counter to `RECV_SKIP_TICKS` = 256. -/
theorem c4_recv_throttle (s : PortState) (cap allocs cnt : Nat)
    (events : List ReadEv) (hC : s.client_fd ≠ NOT_CONNECTED) :
    RECV_SKIP_TICKS = 256 ∧
    (s.recv_skip_cnt ≠ 0 →
      RecvPackets s cap allocs cnt events
        = ({ s with recv_skip_cnt := s.recv_skip_cnt - 1 }, [], 0)) ∧
    (s.recv_skip_cnt = 0 → (RecvPackets s cap allocs cnt events).2.1 = [] →
      (RecvPackets s cap allocs cnt events).1.recv_skip_cnt = RECV_SKIP_TICKS) := by
  refine ⟨rfl, ?_, ?_⟩
  · intro h
    simp [RecvPackets, hC, h]
  · intro h0 hnil
    have hcond : ¬ (s.recv_skip_cnt ≠ 0) := by simp [h0]
    simp only [RecvPackets, if_neg hC, if_neg hcond] at hnil ⊢
    simp [hnil]

theorem c4_recv_throttle_witness :
    stThr.client_fd ≠ NOT_CONNECTED ∧ stThr.recv_skip_cnt ≠ 0 ∧
    RecvPackets stThr 4 1 1 [ReadEv.err]
      = ({ stThr with recv_skip_cnt := stThr.recv_skip_cnt - 1 }, [], 0) :=
  ⟨by decide, by decide,
    (c4_recv_throttle stThr 4 1 1 [ReadEv.err] (by decide)).2.1 (by decide)⟩

/-- C6: a send call never invokes the connection-loss handling procedure and
writes no driver state: `SendPackets` returns the entry state unchanged
(active and retired descriptors, idle-poll counter, descriptor table and
acceptor flag all keep their values). -/
theorem c6_send_frame (s : PortState) (wr : List Bool) (pkts : List Pkt) :
    (SendPackets s wr pkts).1 = s := rfl

/-- C7: with no active connection, a receive call returns the entry state
with no buffers and no frees, independently of read events, and a send call
fails its first `sendmsg` (EBADF on the NOT_CONNECTED descriptor), sending
nothing, transmitting nothing, releasing no buffer and leaving the state
unchanged. -/
theorem c7_disconnected_noop (s : PortState) (cap allocs cnt : Nat)
    (events : List ReadEv) (wr : List Bool) (pkts : List Pkt)
    (h : s.client_fd = NOT_CONNECTED) :
    RecvPackets s cap allocs cnt events = (s, [], 0) ∧
    SendPackets s wr pkts = (s, 0, [], []) := by
  constructor
  · simp [RecvPackets, h]
  · have hv : decide (0 ≤ s.client_fd) = false := by
      simp [h, NOT_CONNECTED]
    simp [SendPackets, hv, sendLoop_invalid]

theorem c7_disconnected_noop_witness :
    stLost.client_fd = NOT_CONNECTED ∧
    (RecvPackets stLost 4 1 1 [ReadEv.dgram [1]] = (stLost, [], 0) ∧
     SendPackets stLost [true] [pkABC] = (stLost, 0, [], [])) :=
  ⟨by decide, c7_disconnected_noop stLost 4 1 1 [ReadEv.dgram [1]] [true] [pkABC] (by decide)⟩

/-- C2: the loss-handling procedure moves the active descriptor into the
retired slot without closing it (the descriptor table is untouched), sets
the active descriptor to NOT_CONNECTED, and marks a fresh acceptor task as
spawned; and the retired descriptor stays open afterwards: neither a
receive call, nor a send call, nor the next accept (which closes only the
freshly accepted temporary descriptor) removes it from the table. -/
theorem c2_loss_handling (s : PortState) (newFd : Int) (c : Nat)
    (cap allocs cnt : Nat) (events : List ReadEv) (wr : List Bool)
    (pkts : List Pkt) :
    (CloseConnection s).old_client_fd = s.client_fd ∧
    (CloseConnection s).client_fd = NOT_CONNECTED ∧
    (CloseConnection s).acceptPending = true ∧
    (CloseConnection s).fds = s.fds ∧
    (RecvPackets s cap allocs cnt events).1.fds = s.fds ∧
    (SendPackets s wr pkts).1.fds = s.fds ∧
    (s.client_fd = NOT_CONNECTED → newFd ≠ s.old_client_fd →
      (AcceptNewClient s newFd c).fds s.old_client_fd = s.fds s.old_client_fd) := by
  refine ⟨rfl, rfl, rfl, rfl, recvPackets_fds s cap allocs cnt events, rfl, ?_⟩
  intro hcl hne
  by_cases hold : s.old_client_fd = NOT_CONNECTED
  · have hne3 : ¬ (NOT_CONNECTED = newFd) := by
      rw [← hold]
      exact fun hh => hne hh.symm
    simp [AcceptNewClient, hold, fdUpdate, Ne.symm hne, hne3]
  · simp only [AcceptNewClient, hold, ne_eq, not_false_eq_true, if_true, hcl]
    simp [dup2, NOT_CONNECTED, fdUpdate, Ne.symm hne]

theorem c2_loss_handling_witness :
    stLost.client_fd = NOT_CONNECTED ∧ (7 : Int) ≠ stLost.old_client_fd ∧
    ((CloseConnection stLost).old_client_fd = stLost.client_fd ∧
     (CloseConnection stLost).client_fd = NOT_CONNECTED ∧
     (CloseConnection stLost).acceptPending = true ∧
     (CloseConnection stLost).fds = stLost.fds ∧
     (RecvPackets stLost 4 1 1 [ReadEv.err]).1.fds = stLost.fds ∧
     (SendPackets stLost [true] [pkABC]).1.fds = stLost.fds ∧
     (AcceptNewClient stLost 7 1).fds stLost.old_client_fd
       = stLost.fds stLost.old_client_fd) := by
  have h := c2_loss_handling stLost 7 1 4 1 1 [ReadEv.err] [true] [pkABC]
  exact ⟨by decide, by decide,
    h.1, h.2.1, h.2.2.1, h.2.2.2.1, h.2.2.2.2.1, h.2.2.2.2.2.1,
    h.2.2.2.2.2.2 (by decide) (by decide)⟩

/-- C3: in the receive loop, an iteration whose read is not positive always
releases the freshly allocated buffer and never returns it: a would-block
read stops the loop with no loss declared; an interrupted read frees the
buffer and retries the same iteration (the remaining count is unchanged);
any other outcome — an error or a zero-length read (a datagram truncating
to 0 bytes) — frees the buffer, stops the loop, and at the `RecvPackets`
level declares the connection lost through the loss-handling procedure. -/
theorem c3_recv_error_cases (cap a c : Nat) (rest : List ReadEv)
    (d : List Nat) (s : PortState) (hC : s.client_fd ≠ NOT_CONNECTED)
    (hS : s.recv_skip_cnt = 0) :
    recvLoop cap (a + 1) (c + 1) (ReadEv.wouldBlock :: rest) = ([], false, 1) ∧
    recvLoop cap (a + 1) (c + 1) (ReadEv.intr :: rest)
      = ((recvLoop cap a (c + 1) rest).1, (recvLoop cap a (c + 1) rest).2.1,
         (recvLoop cap a (c + 1) rest).2.2 + 1) ∧
    recvLoop cap (a + 1) (c + 1) (ReadEv.err :: rest) = ([], true, 1) ∧
    (min d.length cap = 0 →
      recvLoop cap (a + 1) (c + 1) (ReadEv.dgram d :: rest) = ([], true, 1)) ∧
    ((RecvPackets s cap (a + 1) (c + 1) (ReadEv.err :: rest)).1.old_client_fd
        = s.client_fd ∧
     (RecvPackets s cap (a + 1) (c + 1) (ReadEv.err :: rest)).1.client_fd
        = NOT_CONNECTED ∧
     (RecvPackets s cap (a + 1) (c + 1) (ReadEv.err :: rest)).1.acceptPending
        = true) := by
  have hcond : ¬ (s.recv_skip_cnt ≠ 0) := by simp [hS]
  refine ⟨by simp [recvLoop], by simp [recvLoop], by simp [recvLoop], ?_, ?_⟩
  · intro h
    simp [recvLoop, h]
  · simp only [RecvPackets, if_neg hC, if_neg hcond]
    simp [recvLoop, CloseConnection]

theorem c3_recv_error_cases_witness :
    stConn.client_fd ≠ NOT_CONNECTED ∧ stConn.recv_skip_cnt = 0 ∧
    min (List.length ([] : List Nat)) 4 = 0 ∧
    recvLoop 4 1 1 [ReadEv.wouldBlock] = ([], false, 1) ∧
    recvLoop 4 1 1 [ReadEv.err] = ([], true, 1) ∧
    recvLoop 4 1 1 [ReadEv.dgram []] = ([], true, 1) ∧
    (RecvPackets stConn 4 1 1 [ReadEv.err]).1.client_fd = NOT_CONNECTED := by
  have h := c3_recv_error_cases 4 0 0 [] [] stConn (by decide) (by decide)
  exact ⟨by decide, by decide, by decide, h.1, h.2.2.1,
    h.2.2.2.1 (by decide), h.2.2.2.2.2.1⟩

theorem headD_eq_getD_zero (wr : List Bool) : wr.headD true = wr.getD 0 true := by
  cases wr <;> rfl

theorem tail_getD (wr : List Bool) (i : Nat) :
    wr.tail.getD i true = wr.getD (i + 1) true := by
  cases wr <;> rfl

/-- Characterization of the send loop: it sends some number `k` of leading
buffers, every `sendmsg` among the first `k` succeeded, the loop stopped at
a failing `sendmsg` if it stopped short of the batch, and the datagrams
transmitted are those of the first `k` buffers, in order. -/
theorem sendLoop_spec (fdValid : Bool) :
    ∀ (pkts : List Pkt) (wr : List Bool),
      (sendLoop fdValid wr pkts).1 ≤ pkts.length ∧
      (∀ i, i < (sendLoop fdValid wr pkts).1 → writeOk fdValid wr i = true) ∧
      ((sendLoop fdValid wr pkts).1 < pkts.length →
        writeOk fdValid wr (sendLoop fdValid wr pkts).1 = false) ∧
      (sendLoop fdValid wr pkts).2
        = (pkts.take (sendLoop fdValid wr pkts).1).map datagramOf := by
  intro pkts
  induction pkts with
  | nil =>
    intro wr
    simp [sendLoop]
  | cons p rest ih =>
    intro wr
    have ihr := ih wr.tail
    by_cases h : (fdValid && wr.headD true) = true
    · have heq : sendLoop fdValid wr (p :: rest)
          = ((sendLoop fdValid wr.tail rest).1 + 1,
             datagramOf p :: (sendLoop fdValid wr.tail rest).2) := by
        simp only [sendLoop]
        rw [if_pos h]
      rw [heq]
      refine ⟨Nat.succ_le_succ ihr.1, ?_, ?_, ?_⟩
      · intro i hi
        cases i with
        | zero =>
          show (fdValid && wr.getD 0 true) = true
          rw [← headD_eq_getD_zero]
          exact h
        | succ j =>
          have hj := ihr.2.1 j (by omega)
          show (fdValid && wr.getD (j + 1) true) = true
          rw [← tail_getD]
          exact hj
      · intro hlt
        have hlt2 : (sendLoop fdValid wr.tail rest).1 < rest.length := by
          simp only [List.length_cons] at hlt
          omega
        have hj := ihr.2.2.1 hlt2
        show (fdValid && wr.getD ((sendLoop fdValid wr.tail rest).1 + 1) true) = false
        rw [← tail_getD]
        exact hj
      · rw [ihr.2.2.2]
        simp [List.take_succ_cons]
    · have hf : (fdValid && wr.headD true) = false := by
        revert h
        cases fdValid && wr.headD true <;> simp
      have heq : sendLoop fdValid wr (p :: rest) = (0, []) := by
        simp only [sendLoop]
        rw [if_neg h]
      rw [heq]
      refine ⟨Nat.zero_le _, ?_, ?_, by simp⟩
      · intro i hi
        omega
      · intro _
        show (fdValid && wr.getD 0 true) = false
        rw [← headD_eq_getD_zero]
        exact hf

/-- C5: with a valid descriptor captured, a send call writes the buffers in
order, stops at the first failing `sendmsg` without skipping, returns the
number `k` of leading buffers sent (`k` at most the batch size), transmits
exactly their datagrams in order, and releases exactly the first `k`
buffers; in particular with 3 buffers and a failing second write it returns
1, releases the first buffer and transmits only its datagram. -/
theorem c5_send_first_failure (s : PortState) (wr : List Bool)
    (pkts : List Pkt) (p1 p2 p3 : Pkt) (hfd : 0 ≤ s.client_fd) :
    (SendPackets s wr pkts).2.1 ≤ pkts.length ∧
    (∀ i, i < (SendPackets s wr pkts).2.1 →
      writeOk (decide (0 ≤ s.client_fd)) wr i = true) ∧
    ((SendPackets s wr pkts).2.1 < pkts.length →
      writeOk (decide (0 ≤ s.client_fd)) wr (SendPackets s wr pkts).2.1 = false) ∧
    (SendPackets s wr pkts).2.2.1
      = (pkts.take (SendPackets s wr pkts).2.1).map datagramOf ∧
    (SendPackets s wr pkts).2.2.2 = pkts.take (SendPackets s wr pkts).2.1 ∧
    SendPackets s [true, false] [p1, p2, p3] = (s, 1, [datagramOf p1], [p1]) := by
  have hs := sendLoop_spec (decide (0 ≤ s.client_fd)) pkts wr
  have hv : decide (0 ≤ s.client_fd) = true := decide_eq_true hfd
  refine ⟨hs.1, hs.2.1, hs.2.2.1, hs.2.2.2, rfl, ?_⟩
  simp [SendPackets, hv, sendLoop]

theorem c5_send_first_failure_witness :
    0 ≤ stConn.client_fd ∧
    SendPackets stConn [true, false] [pkABC, pkABC, pkABC]
      = (stConn, 1, [datagramOf pkABC], [pkABC]) :=
  ⟨by decide,
    (c5_send_first_failure stConn [true, false] [pkABC, pkABC, pkABC]
      pkABC pkABC pkABC (by decide)).2.2.2.2.2⟩

/-- C8: for a buffer whose stored segment count matches its chain, the
iovec walk gathers exactly the segments of the chain in order, the datagram of
one `sendmsg` is their concatenation, and the send loop issues exactly one
such write per buffer (a successful write contributes exactly one datagram
and consumes one write outcome). -/
theorem c8_scatter_gather (p : Pkt) (rest : List Pkt) (wr : List Bool)
    (hw : p.nb_segs = chainLen p.mbuf) :
    gatherIov p.nb_segs (some p.mbuf) = some (chainSegs p.mbuf) ∧
    datagramOf p = (chainSegs p.mbuf).flatten ∧
    sendLoop true (true :: wr) (p :: rest)
      = ((sendLoop true wr rest).1 + 1,
         datagramOf p :: (sendLoop true wr rest).2) := by
  have hg : gatherIov p.nb_segs (some p.mbuf) = some (chainSegs p.mbuf) := by
    rw [hw]
    exact gatherIov_chain p.mbuf
  refine ⟨hg, ?_, ?_⟩
  · rw [datagramOf, hg]
    rfl
  · simp [sendLoop]

theorem c8_scatter_gather_witness :
    pkABC.nb_segs = chainLen pkABC.mbuf ∧
    gatherIov pkABC.nb_segs (some pkABC.mbuf) = some (chainSegs pkABC.mbuf) ∧
    datagramOf pkABC = (chainSegs pkABC.mbuf).flatten ∧
    datagramOf pkABC = [10, 11, 20, 21, 22, 30] ∧
    sendLoop true (true :: []) (pkABC :: [])
      = ((sendLoop true [] []).1 + 1, datagramOf pkABC :: (sendLoop true [] []).2) := by
  have h := c8_scatter_gather pkABC [] [] (by decide)
  exact ⟨by decide, h.1, h.2.1, by decide, h.2.2⟩

/-- C9: a delivered datagram with at least one byte yields exactly one
buffer and the loop continues, with no loss declared for it; the
buffer content is the first `min length cap` bytes of the datagram, so a datagram of
size at most the capacity is returned whole with matching length, while a
larger one is silently clipped to exactly `cap` bytes; and every buffer the
receive loop ever returns has length at most the capacity. -/
theorem c9_datagram_truncation (cap a c a2 c2 : Nat) (d p : List Nat)
    (rest evs : List ReadEv) (hcap : 0 < cap) (hd : 0 < d.length) :
    recvLoop cap (a + 1) (c + 1) (ReadEv.dgram d :: rest)
      = (d.take (min d.length cap) :: (recvLoop cap a c rest).1,
         (recvLoop cap a c rest).2.1, (recvLoop cap a c rest).2.2) ∧
    (d.length ≤ cap →
      d.take (min d.length cap) = d ∧
      (d.take (min d.length cap)).length = d.length) ∧
    (cap < d.length →
      d.take (min d.length cap) = d.take cap ∧
      (d.take (min d.length cap)).length = cap) ∧
    (p ∈ (recvLoop cap a2 c2 evs).1 → p.length ≤ cap) := by
  have hpos : 0 < min d.length cap := lt_min hd hcap
  refine ⟨?_, ?_, ?_, fun hp => recvLoop_len_le cap evs a2 c2 p hp⟩
  · simp only [recvLoop]
    rw [if_pos hpos]
  · intro h
    rw [min_eq_left h]
    exact ⟨List.take_length d, by simp⟩
  · intro h
    rw [min_eq_right (le_of_lt h)]
    exact ⟨rfl, by simp [List.length_take, Nat.le_of_lt h]⟩

theorem c9_datagram_truncation_witness :
    0 < 4 ∧ 0 < List.length [1, 2, 3, 4, 5, 6] ∧
    4 < List.length [1, 2, 3, 4, 5, 6] ∧
    [8, 9] ∈ (recvLoop 4 1 1 [ReadEv.dgram [8, 9]]).1 ∧
    recvLoop 4 1 1 [ReadEv.dgram [1, 2, 3, 4, 5, 6]]
      = (List.take (min (List.length [1, 2, 3, 4, 5, 6]) 4) [1, 2, 3, 4, 5, 6]
           :: (recvLoop 4 0 0 []).1,
         (recvLoop 4 0 0 []).2.1, (recvLoop 4 0 0 []).2.2) ∧
    List.take (min (List.length [1, 2, 3, 4, 5, 6]) 4) [1, 2, 3, 4, 5, 6]
      = List.take 4 [1, 2, 3, 4, 5, 6] ∧
    (List.take (min (List.length [1, 2, 3, 4, 5, 6]) 4) [1, 2, 3, 4, 5, 6]).length
      = 4 ∧
    List.length [8, 9] ≤ 4 := by
  have h := c9_datagram_truncation 4 0 0 1 1 [1, 2, 3, 4, 5, 6] [8, 9]
    [] [ReadEv.dgram [8, 9]] (by decide) (by decide)
  have hmem : [8, 9] ∈ (recvLoop 4 1 1 [ReadEv.dgram [8, 9]]).1 := by
    simp [recvLoop]
  exact ⟨by decide, by decide, by decide, hmem, h.1,
    (h.2.2.1 (by decide)).1, (h.2.2.1 (by decide)).2, h.2.2.2 hmem⟩

/-- C10: with an active connection and a zero idle-poll counter, a receive
call requesting 0 buffers consumes no read event and allocates and frees no
buffer, yet returns no buffer and sets the counter to `RECV_SKIP_TICKS` =
256 — and from that state, any following sequence of up to 256 receive
calls (whatever their capacities, allocator budgets, counts and pending
datagrams) returns 0 buffers every time. -/
theorem c10_zero_count_backoff (s : PortState) (cap allocs : Nat)
    (events : List ReadEv) (calls : List (Nat × Nat × Nat × List ReadEv))
    (hC : s.client_fd ≠ NOT_CONNECTED) (hS : s.recv_skip_cnt = 0)
    (hlen : calls.length ≤ RECV_SKIP_TICKS) :
    RecvPackets s cap allocs 0 events
      = ({ s with recv_skip_cnt := RECV_SKIP_TICKS }, [], 0) ∧
    (recvCalls { s with recv_skip_cnt := RECV_SKIP_TICKS } calls).2
      = List.replicate calls.length 0 := by
  have hcond : ¬ (s.recv_skip_cnt ≠ 0) := by simp [hS]
  constructor
  · simp [RecvPackets, if_neg hC, if_neg hcond, recvLoop]
  · exact recvCalls_throttled calls { s with recv_skip_cnt := RECV_SKIP_TICKS } hC hlen

theorem c10_zero_count_backoff_witness :
    stConn.client_fd ≠ NOT_CONNECTED ∧ stConn.recv_skip_cnt = 0 ∧
    List.length [((4 : Nat), (1 : Nat), (1 : Nat), [ReadEv.dgram [1, 2]]),
                 (4, 1, 1, ([] : List ReadEv))] ≤ RECV_SKIP_TICKS ∧
    RecvPackets stConn 4 1 0 [ReadEv.dgram [9]]
      = ({ stConn with recv_skip_cnt := RECV_SKIP_TICKS }, [], 0) ∧
    (recvCalls { stConn with recv_skip_cnt := RECV_SKIP_TICKS }
      [((4 : Nat), (1 : Nat), (1 : Nat), [ReadEv.dgram [1, 2]]),
       (4, 1, 1, ([] : List ReadEv))]).2
      = List.replicate (List.length
          [((4 : Nat), (1 : Nat), (1 : Nat), [ReadEv.dgram [1, 2]]),
           (4, 1, 1, ([] : List ReadEv))]) 0 := by
  have h := c10_zero_count_backoff stConn 4 1 [ReadEv.dgram [9]]
    [((4 : Nat), (1 : Nat), (1 : Nat), [ReadEv.dgram [1, 2]]),
     (4, 1, 1, ([] : List ReadEv))] (by decide) (by decide) (by decide)
  exact ⟨by decide, by decide, by decide, h.1, h.2⟩
